import Mathlib

/-!
# unity-cli: formal model of the wire codec, router and lifecycle entry points

A shallow embedding of the `unity-cli` repository (crates `common`,
`ucli-server` and `ucli`), together with proofs settling the specification
claims about it.

Modelling conventions:
* Rust byte buffers (`Vec<u8>`, `BytesMut`, UTF-8 string payloads) are
  `List Nat` with each element intended to be `< 256`.
* `bincode` 1.x default options (fixed-width little-endian integers, `u32`
  enum variant tags, `u64` collection lengths, one-byte `bool`/`Option`
  tags) are spelled out as explicit serializers/deserializers.
* The tokio `LengthDelimitedCodec` configured in `AsyncHeteroCodec::new`
  (4-byte big-endian `u32` length field, default 8 MiB maximum frame
  length) is modelled as an explicit state machine.
* Concurrency is modelled by running each server loop over an explicit
  finite list of the events it would receive, producing the list of actions
  it performs.
-/

namespace UnityCli

/-! ## Byte-level primitives -/

/-- A byte buffer: Rust `Vec<u8>` / `&[u8]`, bytes as `Nat`. -/
abbrev ByteStr := List Nat

/-- `u32::to_be_bytes` (Rust `as u32` truncation included: only the low
32 bits of `n` contribute). -/
def u32be (n : Nat) : List Nat :=
  [n / 2 ^ 24 % 256, n / 2 ^ 16 % 256, n / 2 ^ 8 % 256, n % 256]

/-- `u32::to_le_bytes`, as written by bincode for enum tags. -/
def u32le (n : Nat) : List Nat :=
  [n % 256, n / 2 ^ 8 % 256, n / 2 ^ 16 % 256, n / 2 ^ 24 % 256]

/-- `u64::to_le_bytes`, as written by bincode for collection lengths. -/
def u64le (n : Nat) : List Nat :=
  [n % 256, n / 2 ^ 8 % 256, n / 2 ^ 16 % 256, n / 2 ^ 24 % 256,
   n / 2 ^ 32 % 256, n / 2 ^ 40 % 256, n / 2 ^ 48 % 256, n / 2 ^ 56 % 256]

/-- Big-endian value of a byte list (`u32::from_be_bytes` on 4 bytes). -/
def beVal (bs : List Nat) : Nat := bs.foldl (fun acc b => 256 * acc + b) 0

/-- Little-endian value of a byte list (`u32::from_le_bytes` /
`u64::from_le_bytes`). -/
def leVal (bs : List Nat) : Nat := bs.foldr (fun b acc => b + 256 * acc) 0

/-- Read exactly `n` bytes from the front of a buffer (`read_exact` on an
in-memory source): fails when fewer than `n` bytes are available. -/
def readN (n : Nat) (bs : List Nat) : Option (List Nat × List Nat) :=
  if n ≤ bs.length then some (bs.take n, bs.drop n) else none

theorem beVal_u32be (n : Nat) : beVal (u32be n) = n % 2 ^ 32 := by
  simp only [u32be, beVal, List.foldl]
  omega

theorem leVal_u32le (n : Nat) : leVal (u32le n) = n % 2 ^ 32 := by
  simp only [u32le, leVal, List.foldr]
  omega

theorem leVal_u64le (n : Nat) : leVal (u64le n) = n % 2 ^ 64 := by
  simp only [u64le, leVal, List.foldr]
  omega

@[simp] theorem length_u32be (n : Nat) : (u32be n).length = 4 := rfl

@[simp] theorem length_u32le (n : Nat) : (u32le n).length = 4 := rfl

@[simp] theorem length_u64le (n : Nat) : (u64le n).length = 8 := rfl

theorem readN_exact (l r : List Nat) : readN l.length (l ++ r) = some (l, r) := by
  simp [readN]

theorem readN_short (n : Nat) (bs : List Nat) (h : bs.length < n) :
    readN n bs = none := by
  simp [readN]
  omega

/-! ## Message types (`common/src/lib.rs`) -/

/-- `enum UnityLogType` (`common/src/lib.rs` lines 24-32). -/
inductive UnityLogType
  | Error
  | Assert
  | Warning
  | Log
  | Exception
  | Unknown
deriving DecidableEq, Repr

/-- `impl From<i32> for UnityLogType` (`common/src/lib.rs` lines 34-45):
the wire severity integer mapped to the enum, any other value to
`Unknown`. -/
def UnityLogType.fromI32 (value : Int) : UnityLogType :=
  if value = 0 then .Error
  else if value = 1 then .Assert
  else if value = 2 then .Warning
  else if value = 3 then .Log
  else if value = 4 then .Exception
  else .Unknown

/-- The serde variant index of a `UnityLogType` value (bincode writes it as
a little-endian `u32`). -/
def UnityLogType.tag : UnityLogType → Nat
  | .Error => 0
  | .Assert => 1
  | .Warning => 2
  | .Log => 3
  | .Exception => 4
  | .Unknown => 5

/-- `enum ClientMessage` (`common/src/lib.rs` lines 19-22). String payloads
are carried as UTF-8 byte lists. -/
inductive ClientMessage
  | CommandRequest (cmd : ByteStr) (args : List ByteStr)
deriving DecidableEq, Repr

/-- `enum ServerMessage` (`common/src/lib.rs` lines 47-65). -/
inductive ServerMessage
  | UnityConsoleOutput (log_type : UnityLogType) (log : ByteStr) (stack_trace : ByteStr)
  | CompilationStarted
  | Compiling
  | CompilationFinished
  | AssemblyUnloaded
  | AssemblyReloading
  | AssemblyReloaded
  | IsBusy
  | CommandFinished (is_success : Bool) (msg : Option ByteStr)
deriving DecidableEq, Repr

/-- A byte list that stands for a real Rust byte buffer: every element is a
byte and the length fits the `u64` bincode writes for it. -/
def wfStr (s : ByteStr) : Bool := s.all (· < 256) && s.length < 2 ^ 64

/-- Representability of a `ClientMessage` value: all payload byte lists are
genuine byte buffers. -/
def ClientMessage.wf : ClientMessage → Bool
  | .CommandRequest cmd args => wfStr cmd && args.length < 2 ^ 64 && args.all wfStr

/-- Representability of a `ServerMessage` value. -/
def ServerMessage.wf : ServerMessage → Bool
  | .UnityConsoleOutput _ log st => wfStr log && wfStr st
  | .CommandFinished _ msg => (msg.map wfStr).getD true
  | _ => true

/-! ## bincode serialization (bincode 1.x default options, as used by
`bincode::serialize` / `bincode::deserialize`) -/

/-- bincode encoding of a byte buffer / UTF-8 string: `u64` little-endian
length followed by the bytes. -/
def serBytes (s : ByteStr) : List Nat := u64le s.length ++ s

/-- bincode encoding of a `bool`: a single byte, `1` or `0`. -/
def serBool (b : Bool) : List Nat := [if b then 1 else 0]

/-- bincode encoding of an `Option<String>`: tag byte `0`/`1`, then the
value for `Some`. -/
def serOptionBytes : Option ByteStr → List Nat
  | none => [0]
  | some s => 1 :: serBytes s

/-- `bincode::serialize::<ClientMessage>`: `u32` variant tag, then the
fields in order (`String`, then `Vec<String>`). -/
def serClientMessage : ClientMessage → List Nat
  | .CommandRequest cmd args =>
      u32le 0 ++ serBytes cmd ++ u64le args.length ++ (args.map serBytes).flatten

/-- `bincode::serialize::<ServerMessage>`. -/
def serServerMessage : ServerMessage → List Nat
  | .UnityConsoleOutput t log st => u32le 0 ++ u32le t.tag ++ serBytes log ++ serBytes st
  | .CompilationStarted => u32le 1
  | .Compiling => u32le 2
  | .CompilationFinished => u32le 3
  | .AssemblyUnloaded => u32le 4
  | .AssemblyReloading => u32le 5
  | .AssemblyReloaded => u32le 6
  | .IsBusy => u32le 7
  | .CommandFinished ok msg => u32le 8 ++ serBool ok ++ serOptionBytes msg

/-- Read a little-endian `u32` from the front of a buffer. -/
def readU32le (bs : List Nat) : Option (Nat × List Nat) :=
  (readN 4 bs).map fun p => (leVal p.1, p.2)

/-- Read a little-endian `u64` from the front of a buffer. -/
def readU64le (bs : List Nat) : Option (Nat × List Nat) :=
  (readN 8 bs).map fun p => (leVal p.1, p.2)

/-- bincode decoding of a byte buffer / string: `u64` length then that many
bytes. -/
def readBytes (bs : List Nat) : Option (ByteStr × List Nat) := do
  let (len, r) ← readU64le bs
  readN len r

/-- bincode decoding of a `bool`: only `0` and `1` are accepted
(`InvalidBoolEncoding` otherwise). -/
def readBool (bs : List Nat) : Option (Bool × List Nat) :=
  match bs with
  | 0 :: r => some (false, r)
  | 1 :: r => some (true, r)
  | _ => none

/-- bincode decoding of an `Option<String>`: only tag bytes `0` and `1`
are accepted. -/
def readOptionBytes (bs : List Nat) : Option (Option ByteStr × List Nat) :=
  match bs with
  | 0 :: r => some (none, r)
  | 1 :: r => (readBytes r).map fun p => (some p.1, p.2)
  | _ => none

/-- bincode decoding of `count` consecutive strings (a `Vec<String>` body). -/
def readListBytes : Nat → List Nat → Option (List ByteStr × List Nat)
  | 0, bs => some ([], bs)
  | n + 1, bs => do
      let (s, r) ← readBytes bs
      let (ss, r') ← readListBytes n r
      pure (s :: ss, r')

/-- bincode decoding of a `UnityLogType` from its `u32` variant tag. -/
def readUnityLogType (bs : List Nat) : Option (UnityLogType × List Nat) := do
  let (tag, r) ← readU32le bs
  match tag with
  | 0 => pure (.Error, r)
  | 1 => pure (.Assert, r)
  | 2 => pure (.Warning, r)
  | 3 => pure (.Log, r)
  | 4 => pure (.Exception, r)
  | 5 => pure (.Unknown, r)
  | _ => none

/-- `bincode::deserialize::<ClientMessage>` on a buffer, returning the
message and the unread remainder (bincode's slice deserializer does not
reject trailing bytes). -/
def deserClientMessage (bs : List Nat) : Option (ClientMessage × List Nat) := do
  let (tag, r) ← readU32le bs
  match tag with
  | 0 => do
      let (cmd, r) ← readBytes r
      let (n, r) ← readU64le r
      let (args, r) ← readListBytes n r
      pure (.CommandRequest cmd args, r)
  | _ => none

/-- `bincode::deserialize::<ServerMessage>`. -/
def deserServerMessage (bs : List Nat) : Option (ServerMessage × List Nat) := do
  let (tag, r) ← readU32le bs
  match tag with
  | 0 => do
      let (t, r) ← readUnityLogType r
      let (log, r) ← readBytes r
      let (st, r) ← readBytes r
      pure (.UnityConsoleOutput t log st, r)
  | 1 => pure (.CompilationStarted, r)
  | 2 => pure (.Compiling, r)
  | 3 => pure (.CompilationFinished, r)
  | 4 => pure (.AssemblyUnloaded, r)
  | 5 => pure (.AssemblyReloading, r)
  | 6 => pure (.AssemblyReloaded, r)
  | 7 => pure (.IsBusy, r)
  | 8 => do
      let (ok, r) ← readBool r
      let (msg, r) ← readOptionBytes r
      pure (.CommandFinished ok msg, r)
  | _ => none

/-! ## Serializer/deserializer round-trip lemmas -/

theorem readU32le_ser (n : Nat) (r : List Nat) (h : n < 2 ^ 32) :
    readU32le (u32le n ++ r) = some (n, r) := by
  have hx := readN_exact (u32le n) r
  simp only [length_u32le] at hx
  simp [readU32le, hx, leVal_u32le]
  omega

theorem readU64le_ser (n : Nat) (r : List Nat) (h : n < 2 ^ 64) :
    readU64le (u64le n ++ r) = some (n, r) := by
  have hx := readN_exact (u64le n) r
  simp only [length_u64le] at hx
  simp [readU64le, hx, leVal_u64le]
  omega

theorem readBytes_ser (s : ByteStr) (r : List Nat) (h : s.length < 2 ^ 64) :
    readBytes (serBytes s ++ r) = some (s, r) := by
  simp only [serBytes, List.append_assoc]
  simp [readBytes, readU64le_ser s.length (s ++ r) h, readN_exact]

theorem readBool_ser (b : Bool) (r : List Nat) :
    readBool (serBool b ++ r) = some (b, r) := by
  cases b <;> rfl

theorem readOptionBytes_ser (o : Option ByteStr) (r : List Nat)
    (h : ((o.map fun s => s.length < 2 ^ 64).getD True)) :
    readOptionBytes (serOptionBytes o ++ r) = some (o, r) := by
  match o with
  | none => rfl
  | some s =>
      simp only [Option.map, Option.getD] at h
      simp [serOptionBytes, readOptionBytes, readBytes_ser s r h]

theorem readListBytes_ser (args : List ByteStr) (r : List Nat)
    (h : ∀ s ∈ args, s.length < 2 ^ 64) :
    readListBytes args.length ((args.map serBytes).flatten ++ r) = some (args, r) := by
  induction args with
  | nil => simp [readListBytes]
  | cons s ss ih =>
      have hs : s.length < 2 ^ 64 := h s (by simp)
      have hss : ∀ t ∈ ss, t.length < 2 ^ 64 := fun t ht => h t (by simp [ht])
      simp only [List.map_cons, List.flatten_cons, List.length_cons, List.append_assoc]
      simp [readListBytes, readBytes_ser s _ hs, ih hss]

theorem readUnityLogType_ser (t : UnityLogType) (r : List Nat) :
    readUnityLogType (u32le t.tag ++ r) = some (t, r) := by
  cases t <;>
    simp [readUnityLogType, UnityLogType.tag,
      readU32le_ser 0 r (by norm_num), readU32le_ser 1 r (by norm_num),
      readU32le_ser 2 r (by norm_num), readU32le_ser 3 r (by norm_num),
      readU32le_ser 4 r (by norm_num), readU32le_ser 5 r (by norm_num)]

theorem deserClientMessage_ser (m : ClientMessage) (r : List Nat)
    (h : m.wf = true) :
    deserClientMessage (serClientMessage m ++ r) = some (m, r) := by
  match m with
  | .CommandRequest cmd args =>
      simp only [ClientMessage.wf, wfStr, Bool.and_eq_true, List.all_eq_true,
        decide_eq_true_eq] at h
      obtain ⟨⟨⟨-, hcmd⟩, hn⟩, hargs⟩ := h
      have hargs' : ∀ s ∈ args, s.length < 2 ^ 64 := fun s hs => (hargs s hs).2
      simp only [serClientMessage, List.append_assoc]
      simp [deserClientMessage, readU32le_ser 0 _ (by norm_num),
        readBytes_ser cmd _ hcmd, readU64le_ser args.length _ hn,
        readListBytes_ser args r hargs']

theorem deserServerMessage_ser (m : ServerMessage) (r : List Nat)
    (h : m.wf = true) :
    deserServerMessage (serServerMessage m ++ r) = some (m, r) := by
  match m with
  | .UnityConsoleOutput t log st =>
      simp only [ServerMessage.wf, wfStr, Bool.and_eq_true, List.all_eq_true,
        decide_eq_true_eq] at h
      obtain ⟨⟨-, hlog⟩, -, hst⟩ := h
      simp only [serServerMessage, List.append_assoc]
      simp [deserServerMessage, readU32le_ser 0 _ (by norm_num),
        readUnityLogType_ser t, readBytes_ser log _ hlog, readBytes_ser st _ hst]
  | .CompilationStarted =>
      simp [serServerMessage, deserServerMessage, readU32le_ser 1 r (by norm_num)]
  | .Compiling =>
      simp [serServerMessage, deserServerMessage, readU32le_ser 2 r (by norm_num)]
  | .CompilationFinished =>
      simp [serServerMessage, deserServerMessage, readU32le_ser 3 r (by norm_num)]
  | .AssemblyUnloaded =>
      simp [serServerMessage, deserServerMessage, readU32le_ser 4 r (by norm_num)]
  | .AssemblyReloading =>
      simp [serServerMessage, deserServerMessage, readU32le_ser 5 r (by norm_num)]
  | .AssemblyReloaded =>
      simp [serServerMessage, deserServerMessage, readU32le_ser 6 r (by norm_num)]
  | .IsBusy =>
      simp [serServerMessage, deserServerMessage, readU32le_ser 7 r (by norm_num)]
  | .CommandFinished ok msg =>
      have hmsg : ((msg.map fun s => s.length < 2 ^ 64).getD True) := by
        match msg with
        | none => simp
        | some s =>
            simp only [ServerMessage.wf, wfStr, Option.map, Option.getD,
              Bool.and_eq_true, decide_eq_true_eq, List.all_eq_true] at h
            simpa using h.2
      simp only [serServerMessage, List.append_assoc]
      simp [deserServerMessage, readU32le_ser 8 _ (by norm_num),
        readBool_ser ok, readOptionBytes_ser msg r hmsg]

/-! ## Blocking codec form: `SyncHeteroCodec` (`common/src/lib.rs` 96-116) -/

/-- `SyncHeteroCodec::write`: bincode-serialize the item, then write the
payload length `as u32` in big-endian followed by the payload bytes
(the `as u32` cast keeps only the low 32 bits of the length). The result
is the byte sequence written to `dst`. -/
def syncWrite (ser : α → List Nat) (item : α) : List Nat :=
  let bytes := ser item
  u32be bytes.length ++ bytes

/-- `SyncHeteroCodec::read`: `read_exact` a 4-byte big-endian length, then
`read_exact` that many payload bytes, then bincode-deserialize the
payload. Returns the decoded message together with the unread rest of the
source; `none` models every `anyhow::Result` error path. -/
def syncRead (deser : List Nat → Option (α × List Nat)) (src : List Nat) :
    Option (α × List Nat) :=
  match readN 4 src with
  | none => none
  | some (len_buf, rest) =>
    match readN (beVal len_buf) rest with
    | none => none
    | some (buf, rest') =>
      match deser buf with
      | some (m, _) => some (m, rest')
      | none => none

/-! ## Stream codec form: `AsyncHeteroCodec` (`common/src/lib.rs` 118-175)

`AsyncHeteroCodec::new` builds a tokio `LengthDelimitedCodec` with a u32
big-endian length field and the library's default maximum frame length of
8 MiB. -/

/-- tokio `LengthDelimitedCodec` default `max_frame_length` (8 MiB), in
force for the codec built by `AsyncHeteroCodec::new`. -/
def MAX_FRAME_LEN : Nat := 8 * 1024 * 1024

/-- `LengthDelimitedCodec::encode` for this configuration: errors
(`none`) when the payload exceeds the maximum frame length, otherwise
emits the 4-byte big-endian length header followed by the payload. -/
def lddEncode (payload : List Nat) : Option (List Nat) :=
  if payload.length > MAX_FRAME_LEN then none
  else some (u32be payload.length ++ payload)

/-- `AsyncHeteroCodec::encode` (`Encoder` impl): bincode-serialize the
item, then frame the payload; the frame bytes are what is appended to
`dst`. -/
def asyncEncode (ser : α → List Nat) (item : α) : Option (List Nat) :=
  lddEncode (ser item)

/-- One outcome of a `Decoder::decode` call: `Err(_)`, `Ok(None)` (more
bytes needed), or `Ok(Some(_))`. -/
inductive DecodeOut (α : Type)
  | error
  | incomplete
  | frame (a : α)
deriving DecidableEq, Repr

/-- The stream decoder state: the first component mirrors
`LengthDelimitedCodec`'s `DecodeState` (`none` = `Head`, the length header
not yet consumed; `some n` = `Data n`, header consumed and `n` payload
bytes awaited), the second is the read buffer owned by the `FramedRead`. -/
abbrev LddState := Option Nat × List Nat

/-- `LengthDelimitedCodec::decode` on the buffered bytes: consume the
4-byte big-endian header once available, rejecting header values above
the maximum frame length, then wait until the payload is buffered and
split it off, leaving any surplus bytes in the buffer. -/
def lddDecode (pending : Option Nat) (buf : List Nat) :
    LddState × DecodeOut (List Nat) :=
  match pending with
  | none =>
    if buf.length < 4 then ((none, buf), .incomplete)
    else
      let n := beVal (buf.take 4)
      if n > MAX_FRAME_LEN then ((none, buf), .error)
      else
        let rest := buf.drop 4
        if rest.length < n then ((some n, rest), .incomplete)
        else ((none, rest.drop n), .frame (rest.take n))
  | some n =>
    if buf.length < n then ((some n, buf), .incomplete)
    else ((none, buf.drop n), .frame (buf.take n))

/-- `AsyncHeteroCodec::decode` behind a `FramedRead`, fed one arriving
chunk: the chunk is appended to the read buffer, the framing layer is
consulted, and a completed frame is bincode-deserialized (a payload that
does not parse is an error). -/
def asyncFeed (deser : List Nat → Option (α × List Nat)) (s : LddState)
    (chunk : List Nat) : LddState × DecodeOut α :=
  match lddDecode s.1 (s.2 ++ chunk) with
  | (s', .incomplete) => (s', .incomplete)
  | (s', .error) => (s', .error)
  | (s', .frame fr) =>
    match deser fr with
    | some (m, _) => (s', .frame m)
    | none => (s', .error)

/-- The decoder state reached after buffering exactly the first `j` bytes
of the frame for `payload`, starting from a fresh decoder: below 4 bytes
the header is still pending and sits in the buffer; from 4 bytes on the
header has been consumed and the buffered payload prefix remains. -/
def partialSt (payload : List Nat) (j : Nat) : LddState :=
  if j < 4 then (none, (u32be payload.length ++ payload).take j)
  else (some payload.length, payload.take (j - 4))

theorem partialSt_zero (payload : List Nat) : partialSt payload 0 = (none, []) := rfl

theorem lddDecode_head_short (buf : List Nat) (h : buf.length < 4) :
    lddDecode none buf = ((none, buf), .incomplete) := by
  simp [lddDecode, h]

theorem lddDecode_head (n : Nat) (rest : List Nat) (hn : n ≤ MAX_FRAME_LEN)
    (h32 : n < 2 ^ 32) :
    lddDecode none (u32be n ++ rest) =
      if rest.length < n then ((some n, rest), .incomplete)
      else ((none, rest.drop n), .frame (rest.take n)) := by
  have h4 : ¬ (u32be n ++ rest).length < 4 := by simp
  have htake : (u32be n ++ rest).take 4 = u32be n := List.take_left' (by simp)
  have hdrop : (u32be n ++ rest).drop 4 = rest := List.drop_left' (by simp)
  have hbe : beVal (u32be n) = n := by rw [beVal_u32be]; omega
  have hmax : ¬ n > MAX_FRAME_LEN := by omega
  simp only [lddDecode, if_neg h4, htake, hbe, hdrop, if_neg hmax]

theorem lddDecode_data (n : Nat) (buf : List Nat) :
    lddDecode (some n) buf =
      if buf.length < n then ((some n, buf), .incomplete)
      else ((none, buf.drop n), .frame (buf.take n)) := rfl

theorem lddFeed_partial (payload : List Nat) (hmax : payload.length ≤ MAX_FRAME_LEN)
    (j k : Nat) (hjk : j ≤ k) (hk : k < 4 + payload.length) :
    lddDecode (partialSt payload j).1
        ((partialSt payload j).2 ++
          ((u32be payload.length ++ payload).drop j).take (k - j)) =
      (partialSt payload k, .incomplete) := by
  have hplt : payload.length < 2 ^ 32 := by
    have : MAX_FRAME_LEN < 2 ^ 32 := by norm_num [MAX_FRAME_LEN]
    omega
  by_cases hj4 : j < 4
  · have hbuf : ((u32be payload.length ++ payload).take j) ++
        ((u32be payload.length ++ payload).drop j).take (k - j) =
        (u32be payload.length ++ payload).take k := by
      conv_rhs => rw [show k = j + (k - j) by omega, List.take_add]
    by_cases hk4 : k < 4
    · simp only [partialSt, if_pos hj4, if_pos hk4]
      rw [hbuf]
      have hlen : ((u32be payload.length ++ payload).take k).length < 4 := by
        rw [List.length_take]
        omega
      exact lddDecode_head_short _ hlen
    · simp only [partialSt, if_pos hj4, if_neg hk4]
      rw [hbuf]
      have hform : (u32be payload.length ++ payload).take k =
          u32be payload.length ++ payload.take (k - 4) := by
        conv_lhs => rw [show k = (u32be payload.length).length + (k - 4) from by simp; omega]
        rw [List.take_append]
      rw [hform, lddDecode_head _ _ hmax hplt,
        if_pos (by rw [List.length_take]; omega)]
  · have hj4' : ¬ k < 4 := by omega
    simp only [partialSt, if_neg hj4, if_neg hj4']
    have hdropj : (u32be payload.length ++ payload).drop j = payload.drop (j - 4) := by
      conv_lhs => rw [show j = (u32be payload.length).length + (j - 4) from by simp; omega]
      rw [List.drop_append]
    rw [hdropj]
    have hbuf : payload.take (j - 4) ++ (payload.drop (j - 4)).take (k - j) =
        payload.take (k - 4) := by
      have hkj : k - j = (k - 4) - (j - 4) := by omega
      rw [hkj]
      conv_rhs => rw [show k - 4 = (j - 4) + ((k - 4) - (j - 4)) by omega, List.take_add]
    rw [hbuf, lddDecode_data, if_pos (by rw [List.length_take]; omega)]

theorem lddFeed_complete (payload : List Nat) (hmax : payload.length ≤ MAX_FRAME_LEN)
    (j : Nat) (_hj : j ≤ 4 + payload.length) (extra : List Nat) :
    lddDecode (partialSt payload j).1
        ((partialSt payload j).2 ++
          ((u32be payload.length ++ payload).drop j ++ extra)) =
      ((none, extra), .frame payload) := by
  have hplt : payload.length < 2 ^ 32 := by
    have : MAX_FRAME_LEN < 2 ^ 32 := by norm_num [MAX_FRAME_LEN]
    omega
  by_cases hj4 : j < 4
  · simp only [partialSt, if_pos hj4]
    have hbuf : ((u32be payload.length ++ payload).take j) ++
        ((u32be payload.length ++ payload).drop j ++ extra) =
        u32be payload.length ++ (payload ++ extra) := by
      rw [← List.append_assoc, List.take_append_drop, List.append_assoc]
    rw [hbuf, lddDecode_head _ _ hmax hplt,
      if_neg (by simp), List.take_left' rfl, List.drop_left' rfl]
  · simp only [partialSt, if_neg hj4]
    have hdropj : (u32be payload.length ++ payload).drop j = payload.drop (j - 4) := by
      conv_lhs => rw [show j = (u32be payload.length).length + (j - 4) from by simp; omega]
      rw [List.drop_append]
    rw [hdropj, ← List.append_assoc, List.take_append_drop, lddDecode_data,
      if_neg (by simp), List.take_left' rfl, List.drop_left' rfl]

/-! ## Server lifecycle (`ucli-server/src/lib.rs`)

The two process-wide singleton slots (`INSTANCE` and `UNITY_STATE`) and the
prefix of `run` (lines 62-97) that manipulates them. Callback function
pointers and channel handles are modelled as opaque numeric identifiers:
only their identity matters to the claims. -/

/-- A connection identifier: `Uuid::from_u64_pair(hi, lo)`. -/
abbrev ConnId := Nat × Nat

/-- `struct UnityState` (line 43): the registered adapter command
callback, as an opaque function-pointer identity. -/
structure UnityState where
  cmd_cb : Nat
deriving DecidableEq, Repr

/-- `struct Instance` (lines 30-33): the stop channel sender and the
unity-message channel sender, as opaque channel identities minted by the
`run` call that created them. -/
structure Instance where
  stop_tx : Nat
  unity_msg_send : Nat
deriving DecidableEq, Repr

/-- The two process-wide slots, `UNITY_STATE` and `INSTANCE`. -/
structure Globals where
  unity_state : Option UnityState
  instanceSlot : Option Instance
deriving DecidableEq, Repr

/-- The singleton-manipulating prefix of `run` (lines 62-97): the adapter
callback is stored into `UNITY_STATE` first, unconditionally; then the
`INSTANCE` slot is examined under the write lock — if it is occupied the
function returns at once (the freshly created channels are dropped),
otherwise the new `Instance` is installed and the server thread is
launched. `fresh_stop`/`fresh_msg` are the identities of the channels the
call creates; the returned `Bool` records whether the server thread was
spawned. -/
def run (g : Globals) (command_callback : Nat) (fresh_stop fresh_msg : Nat) :
    Globals × Bool :=
  let g1 : Globals := { g with unity_state := some ⟨command_callback⟩ }
  match g1.instanceSlot with
  | some _ => (g1, false)
  | none =>
      ({ g1 with instanceSlot := some ⟨fresh_stop, fresh_msg⟩ }, true)

/-! ## Application-event entry points (`on_unity_console_log`,
`on_command_finish`, lines 338-383)

Both read the `INSTANCE` slot and push onto the instance's unbounded
unity-message channel. The channel is modelled by its receiver-alive flag
and queued contents; an unbounded `send` succeeds, appending the value,
exactly when the receiver is still alive. The C string pointers are
modelled by the byte strings they point to, a null pointer by `none`. -/

/-- A tokio mpsc channel as seen from a sender: alive flag of the
receiving half plus the queue of sent values. -/
structure Chan (α : Type) where
  receiverAlive : Bool
  queue : List α
deriving DecidableEq, Repr

/-- `Sender::send` / `UnboundedSender::send`: enqueue and report `Ok` when
the receiver is alive, otherwise leave the queue unchanged and report
`Err`. -/
def Chan.send (c : Chan α) (x : α) : Chan α × Bool :=
  if c.receiverAlive then ({ c with queue := c.queue ++ [x] }, true)
  else (c, false)

/-- The runtime view the event entry points have of the `INSTANCE` slot:
`none` when no instance is active, otherwise the state of the instance's
`unity_msg_send` channel. -/
abbrev InstanceChan := Option (Chan (ConnId × ServerMessage))

/-- `on_unity_console_log` (lines 338-360): with no active instance return
`false`; otherwise build the `UnityConsoleOutput` event from the raw
severity and the two strings, send it tagged with the reassembled
connection id, and return whether the send succeeded. -/
def on_unity_console_log (inst : InstanceChan) (uuid_hi uuid_lo : Nat)
    (log_type : Int) (log stack_trace : ByteStr) : InstanceChan × Bool :=
  match inst with
  | some ch =>
      let msg : ServerMessage :=
        .UnityConsoleOutput (UnityLogType.fromI32 log_type) log stack_trace
      let (ch', ok) := ch.send ((uuid_hi, uuid_lo), msg)
      (some ch', ok)
  | none => (none, false)

/-- `on_command_finish` (lines 362-383): with no active instance do
nothing; otherwise translate the result pointer (`none` = null) into the
optional result text and send a `CommandFinished` event, discarding the
send result. -/
def on_command_finish (inst : InstanceChan) (uuid_hi uuid_lo : Nat)
    (is_success : Bool) (result : Option ByteStr) : InstanceChan :=
  match inst with
  | some ch =>
      let msg : ServerMessage := .CommandFinished is_success result
      some (ch.send ((uuid_hi, uuid_lo), msg)).1
  | none => none

/-! ## Connection registry and the event-delivery loop
(`route_msg_from_unity_loop`, lines 188-204)

The `DashMap<Uuid, Sender<ServerMessage>>` is an association list keyed by
connection id; each entry carries the state of that connection's bounded
outbound channel. -/

/-- The connection registry. -/
abbrev Registry := List (ConnId × Chan ServerMessage)

/-- `DashMap::get`. -/
def Registry.get (conns : Registry) (u : ConnId) : Option (Chan ServerMessage) :=
  (conns.find? fun e => e.1 = u).map Prod.snd

/-- `DashMap::insert` (fresh keys only in the accept path, but modelled as
the usual replace-on-collision). -/
def Registry.insert (conns : Registry) (u : ConnId) (c : Chan ServerMessage) :
    Registry :=
  (u, c) :: conns.filter fun e => ¬ e.1 = u

/-- `DashMap::remove`. -/
def Registry.remove (conns : Registry) (u : ConnId) : Registry :=
  conns.filter fun e => ¬ e.1 = u

/-- Update the stored channel state of an existing key in place. -/
def Registry.update (conns : Registry) (u : ConnId) (c : Chan ServerMessage) :
    Registry :=
  conns.map fun e => if e.1 = u then (e.1, c) else e

/-- `route_msg_from_unity_loop` run over the finite list of
`(ConnectionId, ServerMessage)` pairs the unity-message channel will
yield before it is closed. Returns the final registry state and the
events left unconsumed when the loop exits: the loop `break`s (leaving
the rest of the list unconsumed) when a registry hit's channel send
fails, and stops normally (everything consumed) when the source channel
is exhausted. A registry miss drops the event and continues. -/
def route_msg_from_unity_loop (conns : Registry) :
    List (ConnId × ServerMessage) → Registry × List (ConnId × ServerMessage)
  | [] => (conns, [])
  | (uuid, msg) :: rest =>
      match conns.get uuid with
      | none => route_msg_from_unity_loop conns rest
      | some ch =>
          let (ch', ok) := ch.send msg
          if ok then route_msg_from_unity_loop (conns.update uuid ch') rest
          else (conns, rest)

/-! ## Per-connection pumps (`handle_read` lines 259-282, `handle_write`
lines 284-323)

Each pump is run over the finite list of events its sole input source
yields, producing the list of externally visible actions it performs. A
pump whose event list runs out without a terminating event is still
running; the returned flag records whether the pump terminated. -/

/-- An externally visible action of a pump. -/
inductive PumpAction
  | forwardCommand (uuid : ConnId) (cmd : ByteStr) (args : List ByteStr)
  | writeMessage (m : ServerMessage)
  | releaseConn
deriving DecidableEq, Repr

/-- One outcome of `read.next().await` in `handle_read`, together with the
fate of the subsequent `cmd_tx.send` for a decoded message:
`commandRequest _ _ ok` is `Some(Ok(CommandRequest { .. }))` with `ok`
recording whether the forward through the command channel succeeded,
`deserError` is `Some(Err(_))`, `streamClosed` is `None`. -/
inductive ReadEvent
  | commandRequest (cmd : ByteStr) (args : List ByteStr) (forwardOk : Bool)
  | deserError
  | streamClosed
deriving DecidableEq, Repr

/-- `handle_read` for the connection `uuid`: forward each decoded command
request; a failed forward, a deserialization error or a closed stream
`break`s the loop. There is no release guard in `handle_read`: its exit
performs no registry action. -/
def handle_read (uuid : ConnId) : List ReadEvent → List PumpAction × Bool
  | [] => ([], false)
  | .commandRequest cmd args ok :: rest =>
      if ok then
        let (acts, t) := handle_read uuid rest
        (.forwardCommand uuid cmd args :: acts, t)
      else ([], true)
  | .deserError :: _ => ([], true)
  | .streamClosed :: _ => ([], true)

/-- One outcome of `cmd_rx.recv().await` in `handle_write`, together with
the fate of the subsequent socket write: `message _ ok` is `Some(msg)`
with `ok` recording whether `write.send(msg)` succeeded, `channelClosed`
is `None`. -/
inductive WriteEvent
  | message (m : ServerMessage) (writeOk : Bool)
  | channelClosed
deriving DecidableEq, Repr

/-- The receive/write loop of `handle_write`: write out each received
message in arrival order; a failed write or a closed channel `break`s. -/
def handle_write_loop : List WriteEvent → List PumpAction × Bool
  | [] => ([], false)
  | .message m ok :: rest =>
      if ok then
        let (acts, t) := handle_write_loop rest
        (.writeMessage m :: acts, t)
      else ([], true)
  | .channelClosed :: _ => ([], true)

/-- `handle_write`: the loop wrapped in the `ReleaseGuard` whose `Drop`
runs `on_finish` (the registry removal) when — and only when — the
function exits, on every exit path. -/
def handle_write (events : List WriteEvent) : List PumpAction × Bool :=
  let r := handle_write_loop events
  if r.2 then (r.1 ++ [.releaseConn], true) else r

/-- Number of registry releases in an action trace. -/
def releaseCount (acts : List PumpAction) : Nat :=
  (acts.filter fun a => a = PumpAction.releaseConn).length

/-! ## Accept loop (`accept_conn_loop`, lines 155-186) -/

/-- One outcome of `listener.accept().await`: a new connection (whose
pumps will be bound to the freshly minted id `uuid`), or an error. -/
inductive AcceptEvent
  | conn (uuid : ConnId)
  | acceptError
deriving DecidableEq, Repr

/-- An externally visible action of the accept loop. -/
inductive AcceptAction
  | spawnConn (uuid : ConnId)
  | logError
deriving DecidableEq, Repr

/-- `accept_conn_loop` run over a finite list of accept outcomes: each
accepted connection is registered and its pumps spawned
(`spawnConn`); an accept error is matched by `Err(_e) => {}` — nothing
is done with it, no log statement runs, and the loop proceeds to the
next accept. The loop itself has no exit. -/
def accept_conn_loop : List AcceptEvent → List AcceptAction
  | [] => []
  | .conn uuid :: rest => .spawnConn uuid :: accept_conn_loop rest
  | .acceptError :: rest => accept_conn_loop rest

/-! ## Client-side service discovery (`ucli/src/service_discovery.rs`)

Strings (paths, names, the mDNS fullname) are ASCII byte lists, so that
`str::starts_with` is `List.isPrefixOf`, `==` is list equality, and
`str::replace` with an empty replacement is an explicit
remove-all-occurrences scan. `std::fs::canonicalize` is an opaque
environment parameter `canon` (it consults the file system); `none` is
its error result. -/

/-- `common::MDNS_SERVICE_NAME`, the ASCII bytes of
`"_unity-cli._tcp.local."`. -/
def mdnsServiceName : ByteStr :=
  [95, 117, 110, 105, 116, 121, 45, 99, 108, 105, 46, 95, 116, 99, 112, 46,
   108, 111, 99, 97, 108, 46]

/-- `common::PROJECT_PATH_PROP_KEY` (`"project-path"`). -/
def projectPathKey : ByteStr :=
  [112, 114, 111, 106, 101, 99, 116, 45, 112, 97, 116, 104]

/-- `common::PROJECT_NAME_PROP_KEY` (`"project-name"`). -/
def projectNameKey : ByteStr :=
  [112, 114, 111, 106, 101, 99, 116, 45, 110, 97, 109, 101]

/-- `common::UNITY_VERSION_PROP_KEY` (`"unity-version"`). -/
def unityVersionKey : ByteStr :=
  [117, 110, 105, 116, 121, 45, 118, 101, 114, 115, 105, 111, 110]

/-- `str::replace(pat, "")`: remove every non-overlapping occurrence of
`pat`, scanning left to right. Structural recursion on a fuel that starts
at the list length (the scan consumes at least one element per step, so
the fuel never runs out on the real call). -/
def removeAllAux (pat : ByteStr) : Nat → ByteStr → ByteStr
  | 0, l => l
  | _ + 1, [] => []
  | fuel + 1, c :: rest =>
      if pat.isPrefixOf (c :: rest) ∧ 0 < pat.length then
        removeAllAux pat fuel (rest.drop (pat.length - 1))
      else c :: removeAllAux pat fuel rest

/-- `str::replace(pat, "")` on a whole string. -/
def removeAll (pat l : ByteStr) : ByteStr := removeAllAux pat l.length l

/-- The relevant observations of an `mdns_sd::ServiceInfo`. -/
structure ServiceInfoM where
  addresses : List Nat
  port : Nat
  fullname : ByteStr
  hostname : ByteStr
  properties : List (ByteStr × ByteStr)
deriving DecidableEq, Repr

/-- `ServiceInfo::get_property_val_str`. -/
def ServiceInfoM.getProp (info : ServiceInfoM) (key : ByteStr) : Option ByteStr :=
  (info.properties.find? fun e => e.1 = key).map Prod.snd

/-- `struct Service` (`service_discovery.rs` lines 12-19); the socket
address is the pair of the first resolved address and the port. -/
structure ServiceM where
  address : Nat × Nat
  hostname : ByteStr
  path : ByteStr
  project : ByteStr
  unity_version : ByteStr
  session_name : ByteStr
deriving DecidableEq, Repr

/-- `struct DiscoveryArgs` (`cli_args.rs` lines 23-29), minus the timeout,
which only bounds how many resolution events are observed. -/
structure DiscoveryArgs where
  path : Option ByteStr
  project : Option ByteStr
  session : Option ByteStr
deriving DecidableEq, Repr

/-- The first half of `filter_service` (lines 59-96): require at least one
resolved address and all three published properties, and build the
`Service` value, deriving the session name by deleting the service-type
suffix from the fullname. -/
def extractService (info : ServiceInfoM) : Option ServiceM :=
  match info.addresses.head? with
  | none => none
  | some ip =>
  match info.getProp projectPathKey with
  | none => none
  | some path =>
  match info.getProp projectNameKey with
  | none => none
  | some project =>
  match info.getProp unityVersionKey with
  | none => none
  | some unity_version =>
      some ⟨(ip, info.port), info.hostname, path, project, unity_version,
        removeAll mdnsServiceName info.fullname⟩

/-- The second half of `filter_service` (lines 98-134), the filter
decision for an extracted service: `none` rejects, `some (exact, s)`
admits with the exact-match flag. The path filter compares canonicalized
paths and is skipped entirely when either canonicalization fails; the
project and session filters are prefix tests consulted in that order; with
no path/project/session argument at all the canonicalized working
directory must equal the canonicalized service path; every remaining fall-
through admits the service as a non-exact candidate. -/
def filterDecision (canon : ByteStr → Option ByteStr) (args : DiscoveryArgs)
    (workdir : ByteStr) (service : ServiceM) : Option (Bool × ServiceM) :=
  let pathStep : Option (Option (Bool × ServiceM)) :=
    match args.path with
    | some path_arg =>
        match canon path_arg, canon service.path with
        | some cp, some csp =>
            some (if cp = csp then some (true, service) else none)
        | _, _ => none
    | none => none
  match pathStep with
  | some r => r
  | none =>
  match args.project with
  | some project_arg =>
      if project_arg.isPrefixOf service.project then
        some (decide (service.project = project_arg), service)
      else none
  | none =>
  match args.session with
  | some session_arg =>
      if session_arg.isPrefixOf service.session_name then
        some (decide (service.session_name = session_arg), service)
      else none
  | none =>
      if args.path.isNone then
        match canon workdir, canon service.path with
        | some cw, some csp =>
            if cw = csp then some (true, service) else none
        | _, _ => some (false, service)
      else some (false, service)

/-- `filter_service` (lines 58-135). -/
def filter_service (canon : ByteStr → Option ByteStr) (info : ServiceInfoM)
    (args : DiscoveryArgs) (workdir : ByteStr) : Option (Bool × ServiceM) :=
  match extractService info with
  | none => none
  | some service => filterDecision canon args workdir service

/-- The result of `discover_service`: a service, or one of the two
`todo!()` panics (no candidate after the deadline, or more than one
non-exact candidate). -/
inductive DiscoverOutcome
  | found (s : ServiceM)
  | unimplementedNoCandidate
  | unimplementedAmbiguous
deriving DecidableEq, Repr

/-- The event loop of `discover_service` (lines 31-55) over the finite
list of `ServiceResolved` events received before the deadline, carrying
the accumulated non-exact candidates: an exact match returns immediately;
at the end of the events a single candidate is returned and zero or
several candidates hit the `todo!()` stubs. -/
def discover_loop (canon : ByteStr → Option ByteStr) (args : DiscoveryArgs)
    (workdir : ByteStr) :
    List ServiceInfoM → List ServiceM → DiscoverOutcome
  | [], services =>
      match services with
      | [] => .unimplementedNoCandidate
      | [s] => .found s
      | _ => .unimplementedAmbiguous
  | info :: rest, services =>
      match filter_service canon info args workdir with
      | some (true, s) => .found s
      | some (false, s) => discover_loop canon args workdir rest (services ++ [s])
      | none => discover_loop canon args workdir rest services

/-- `discover_service` (lines 25-56). -/
def discover_service (canon : ByteStr → Option ByteStr)
    (events : List ServiceInfoM) (args : DiscoveryArgs) (workdir : ByteStr) :
    DiscoverOutcome :=
  discover_loop canon args workdir events []

/-- Modelled from the spec: the admission criterion in the spec's words —
"filters resolved instances by these three properties (exact or prefix
match against caller-supplied filters)", the three properties being the
project path, the project name and the session name. A service matches
when every caller-supplied filter is an exact or prefix match of the
corresponding property. Used only to compare the implementation against
the claim. -/
def specAdmits (args : DiscoveryArgs) (s : ServiceM) : Bool :=
  (match args.path with
   | some p => decide (s.path = p) || p.isPrefixOf s.path
   | none => true) &&
  (match args.project with
   | some p => decide (s.project = p) || p.isPrefixOf s.project
   | none => true) &&
  (match args.session with
   | some p => decide (s.session_name = p) || p.isPrefixOf s.session_name
   | none => true)

/-! ## Auxiliary definitions for the analysis -/

/-- The keys of a registry. -/
def keysOf (conns : Registry) : List ConnId := conns.map Prod.fst

/-- The non-exact candidates that a run of the discovery loop over
`events` accumulates: the services admitted by `filter_service` with the
exact flag down. -/
def nonExactCandidates (canon : ByteStr → Option ByteStr)
    (args : DiscoveryArgs) (workdir : ByteStr) (events : List ServiceInfoM) :
    List ServiceM :=
  events.filterMap fun info =>
    match filter_service canon info args workdir with
    | some (false, s) => some s
    | _ => none

/-- A representable client message whose bincode payload exceeds the
stream codec's maximum frame length: a command request whose command name
is 8 MiB of `'a'` (payload length `4 + 8 + 2^23 + 8 = 8388628 >
8388608`). -/
def bigClientMsg : ClientMessage :=
  .CommandRequest (List.replicate MAX_FRAME_LEN 97) []

/-! ## General codec facts -/

theorem syncRead_syncWrite {α : Type} (ser : α → List Nat)
    (deser : List Nat → Option (α × List Nat)) (m : α)
    (hrt : deser (ser m) = some (m, []))
    (hlen : (ser m).length < 2 ^ 32) :
    syncRead deser (syncWrite ser m) = some (m, []) := by
  have h4 := readN_exact (u32be (ser m).length) (ser m)
  simp only [length_u32be] at h4
  have hbe : beVal (u32be (ser m).length) = (ser m).length := by
    rw [beVal_u32be]; omega
  have hx : readN (ser m).length (ser m) = some (ser m, []) := by
    simpa using readN_exact (ser m) []
  simp only [syncWrite, syncRead, h4, hbe, hx, hrt]

theorem asyncEncode_eq_syncWrite {α : Type} (ser : α → List Nat) (m : α)
    (hlen : (ser m).length ≤ MAX_FRAME_LEN) :
    asyncEncode ser m = some (syncWrite ser m) := by
  rw [asyncEncode, lddEncode, if_neg (by omega)]
  rfl

theorem asyncFeed_whole {α : Type} (ser : α → List Nat)
    (deser : List Nat → Option (α × List Nat)) (m : α)
    (hrt : deser (ser m) = some (m, []))
    (hlen : (ser m).length ≤ MAX_FRAME_LEN) :
    asyncFeed deser (none, []) (syncWrite ser m) = ((none, []), .frame m) := by
  have hc := lddFeed_complete (ser m) hlen 0 (by omega) []
  simp only [partialSt_zero, List.drop_zero, List.append_nil, List.nil_append] at hc
  simp only [asyncFeed, syncWrite, List.nil_append, hc, hrt]

theorem asyncFeed_error {α : Type} (deser : List Nat → Option (α × List Nat))
    (s : LddState) (chunk : List Nat) (s' : LddState)
    (h : lddDecode s.1 (s.2 ++ chunk) = (s', .error)) :
    asyncFeed deser s chunk = (s', .error) := by
  rw [asyncFeed, h]

/-! ## Pump trace facts -/

theorem releaseCount_nil : releaseCount [] = 0 := rfl

theorem releaseCount_cons_ne (a : PumpAction) (acts : List PumpAction)
    (h : a ≠ PumpAction.releaseConn) :
    releaseCount (a :: acts) = releaseCount acts := by
  simp [releaseCount, List.filter_cons, h]

theorem releaseCount_append (l₁ l₂ : List PumpAction) :
    releaseCount (l₁ ++ l₂) = releaseCount l₁ + releaseCount l₂ := by
  simp [releaseCount, List.filter_append]

theorem releaseCount_handle_read (uuid : ConnId) (revs : List ReadEvent) :
    releaseCount (handle_read uuid revs).1 = 0 := by
  induction revs with
  | nil => rfl
  | cons e rest ih =>
      cases e with
      | commandRequest c a ok =>
          cases ok
          · rfl
          · simpa [handle_read, releaseCount_cons_ne] using ih
      | deserError => rfl
      | streamClosed => rfl

theorem releaseCount_handle_write_loop (wevs : List WriteEvent) :
    releaseCount (handle_write_loop wevs).1 = 0 := by
  induction wevs with
  | nil => rfl
  | cons e rest ih =>
      cases e with
      | message msg ok =>
          cases ok
          · rfl
          · simpa [handle_write_loop, releaseCount_cons_ne] using ih
      | channelClosed => rfl

/-! ## Registry key facts -/

theorem keysOf_filter_ne (conns : Registry) (u : ConnId) :
    keysOf (conns.filter fun e => ¬ e.1 = u) =
      (keysOf conns).filter fun k => ¬ k = u := by
  induction conns with
  | nil => rfl
  | cons e rest ih =>
      simp only [keysOf, List.filter_cons, decide_not] at ih ⊢
      by_cases he : e.1 = u
      · simp [he, ih]
      · simp [he, ih]

/-! ## Discovery loop characterization -/

theorem discover_loop_no_exact (canon : ByteStr → Option ByteStr)
    (args : DiscoveryArgs) (workdir : ByteStr) (events : List ServiceInfoM)
    (acc : List ServiceM)
    (h : ∀ info ∈ events,
        (filter_service canon info args workdir).map Prod.fst ≠ some true) :
    discover_loop canon args workdir events acc =
      (match acc ++ nonExactCandidates canon args workdir events with
       | [] => .unimplementedNoCandidate
       | [s] => .found s
       | _ => .unimplementedAmbiguous) := by
  induction events generalizing acc with
  | nil => simp [discover_loop, nonExactCandidates]
  | cons info rest ih =>
      have hrest : ∀ i ∈ rest,
          (filter_service canon i args workdir).map Prod.fst ≠ some true :=
        fun i hi => h i (List.mem_cons_of_mem _ hi)
      cases hf : filter_service canon info args workdir with
      | none =>
          simp only [discover_loop, hf, nonExactCandidates, List.filterMap_cons]
          simpa [nonExactCandidates] using ih acc hrest
      | some p =>
          obtain ⟨b, s⟩ := p
          cases b
          · simp only [discover_loop, hf, nonExactCandidates, List.filterMap_cons]
            have := ih (acc ++ [s]) hrest
            simp only [nonExactCandidates] at this
            rw [this, List.append_assoc, List.singleton_append]
          · refine absurd ?_ (h info (List.mem_cons_self _ _))
            rw [hf]
            rfl

/-! ## Claim C8 -/

/-- C8: the conversion from a wire log-severity integer to `UnityLogType`
is total: `0, 1, 2, 3, 4` map to `Error`, `Assert`, `Warning`, `Log`,
`Exception` respectively, and every other integer value maps to the
fallback variant `Unknown`. -/
theorem C8_fromI32_total :
    UnityLogType.fromI32 0 = .Error ∧ UnityLogType.fromI32 1 = .Assert ∧
    UnityLogType.fromI32 2 = .Warning ∧ UnityLogType.fromI32 3 = .Log ∧
    UnityLogType.fromI32 4 = .Exception ∧
    ∀ v : Int, v ≠ 0 → v ≠ 1 → v ≠ 2 → v ≠ 3 → v ≠ 4 →
      UnityLogType.fromI32 v = .Unknown := by
  refine ⟨rfl, rfl, rfl, rfl, rfl, ?_⟩
  intro v h0 h1 h2 h3 h4
  simp [UnityLogType.fromI32, h0, h1, h2, h3, h4]

/-- Witness for C8, at the out-of-range severity `-7`. -/
theorem C8_fromI32_total_witness : UnityLogType.fromI32 (-7) = .Unknown :=
  C8_fromI32_total.2.2.2.2.2 (-7) (by decide) (by decide) (by decide)
    (by decide) (by decide)

/-! ## Claim C2 -/

/-- C2 counterexample: with an instance active (and the callback `10`
registered), a second `run` call supplying callback `20` is not free of
observable effect — it replaces the registered adapter command callback,
because `run` stores the new callback into `UNITY_STATE` before checking
the `INSTANCE` slot. -/
theorem C2_counterexample :
    (run ⟨some ⟨10⟩, some ⟨1, 2⟩⟩ 20 3 4).1.unity_state ≠ some ⟨10⟩ ∧
    (run ⟨some ⟨10⟩, some ⟨1, 2⟩⟩ 20 3 4).1.unity_state = some ⟨20⟩ := by
  decide

/-- C2 (amended): if an instance is already active, a second `run` call
returns without spawning a server and leaves the `INSTANCE` slot — the
stop channel and the event channel of the first instance — untouched, so
exactly one instance remains active; however, it does overwrite the
registered adapter command callback with the newly supplied one before
returning. -/
theorem C2_run_idempotent_amended (g : Globals) (i : Instance)
    (cb s t : Nat) (h : g.instanceSlot = some i) :
    (run g cb s t).1.instanceSlot = some i ∧
    (run g cb s t).2 = false ∧
    (run g cb s t).1.unity_state = some ⟨cb⟩ := by
  simp [run, h]

/-- Witness for C2 (amended) at a concrete state with an active
instance. -/
theorem C2_run_idempotent_amended_witness :
    (run ⟨some ⟨10⟩, some ⟨1, 2⟩⟩ 20 3 4).1.instanceSlot = some ⟨1, 2⟩ ∧
    (run ⟨some ⟨10⟩, some ⟨1, 2⟩⟩ 20 3 4).2 = false ∧
    (run ⟨some ⟨10⟩, some ⟨1, 2⟩⟩ 20 3 4).1.unity_state = some ⟨20⟩ :=
  C2_run_idempotent_amended ⟨some ⟨10⟩, some ⟨1, 2⟩⟩ ⟨1, 2⟩ 20 3 4 rfl

/-! ## Claim C9 -/

/-- C9: `on_unity_console_log` returns `false` and has no other effect
when no instance is active; with an active instance it returns `true`
exactly when the send succeeded, i.e. when the event channel's receiver
is alive, in which case exactly the constructed console-output event
(severity converted through the `From<i32>` mapping) is appended to the
channel; on a dead channel it returns `false` and the channel is left
unchanged. -/
theorem C9_on_unity_console_log (inst : InstanceChan) (hi lo : Nat)
    (lt : Int) (log st : ByteStr) :
    (inst = none →
      on_unity_console_log inst hi lo lt log st = (none, false)) ∧
    (∀ ch, inst = some ch → ch.receiverAlive = true →
      on_unity_console_log inst hi lo lt log st =
        (some ⟨true, ch.queue ++
          [((hi, lo), .UnityConsoleOutput (UnityLogType.fromI32 lt) log st)]⟩,
         true)) ∧
    (∀ ch, inst = some ch → ch.receiverAlive = false →
      on_unity_console_log inst hi lo lt log st = (some ch, false)) := by
  refine ⟨?_, ?_, ?_⟩
  · intro h; subst h; rfl
  · intro ch h halive; subst h
    simp [on_unity_console_log, Chan.send, halive]
  · intro ch h hdead; subst h
    simp [on_unity_console_log, Chan.send, hdead]

/-- Witness for C9: the no-instance case and a live-channel send at
concrete arguments. -/
theorem C9_on_unity_console_log_witness :
    on_unity_console_log none 1 2 0 [108] [116] = (none, false) ∧
    on_unity_console_log (some ⟨true, []⟩) 1 2 0 [108] [116] =
      (some ⟨true, [((1, 2),
        .UnityConsoleOutput (UnityLogType.fromI32 0) [108] [116])]⟩, true) :=
  ⟨(C9_on_unity_console_log none 1 2 0 [108] [116]).1 rfl,
   by
    have h := (C9_on_unity_console_log (some ⟨true, []⟩) 1 2 0 [108] [116]).2.1
      ⟨true, []⟩ rfl rfl
    simpa using h⟩

/-! ## Claim C10 -/

/-- C10: `on_command_finish` with a null result pointer (modelled `none`)
sends a `CommandFinished` event whose optional result text is `None`, and
with a non-null pointer sends `Some` of the pointed-to string — in either
case exactly that one event is appended to a live event channel; when no
server instance is active the call has no effect at all. -/
theorem C10_on_command_finish (inst : InstanceChan) (hi lo : Nat)
    (ok : Bool) (s : ByteStr) :
    (inst = none → ∀ r, on_command_finish inst hi lo ok r = none) ∧
    (∀ ch, inst = some ch → ch.receiverAlive = true →
      on_command_finish inst hi lo ok none =
        some ⟨true, ch.queue ++ [((hi, lo), .CommandFinished ok none)]⟩ ∧
      on_command_finish inst hi lo ok (some s) =
        some ⟨true, ch.queue ++ [((hi, lo), .CommandFinished ok (some s))]⟩) := by
  constructor
  · intro h r; subst h; rfl
  · intro ch h halive; subst h
    constructor <;> simp [on_command_finish, Chan.send, halive]

/-- Witness for C10: null and non-null result pointers on a live channel,
and the no-instance case. -/
theorem C10_on_command_finish_witness :
    on_command_finish none 1 2 true (some [111]) = none ∧
    on_command_finish (some ⟨true, []⟩) 1 2 true none =
      some ⟨true, [((1, 2), .CommandFinished true none)]⟩ ∧
    on_command_finish (some ⟨true, []⟩) 1 2 true (some [111]) =
      some ⟨true, [((1, 2), .CommandFinished true (some [111]))]⟩ := by
  refine ⟨(C10_on_command_finish none 1 2 true [111]).1 rfl (some [111]), ?_, ?_⟩
  · have h := (C10_on_command_finish (some ⟨true, []⟩) 1 2 true [111]).2
      ⟨true, []⟩ rfl rfl
    simpa using h.1
  · have h := (C10_on_command_finish (some ⟨true, []⟩) 1 2 true [111]).2
      ⟨true, []⟩ rfl rfl
    simpa using h.2

/-! ## Claim C3 -/

/-- C3 counterexample: connection `(1,1)` is registered with a closed
outbound channel and connection `(2,2)` with a live one. Delivering an
event to `(1,1)` and then one to `(2,2)` terminates the loop at the first
event: the loop `break`s on the failed send, the event for `(2,2)` is
left unconsumed and never delivered — contradicting the claim that the
loop continues to process subsequent events for other connections. -/
theorem C3_counterexample :
    route_msg_from_unity_loop
        [((1, 1), ⟨false, []⟩), ((2, 2), ⟨true, []⟩)]
        [((1, 1), .IsBusy), ((2, 2), .IsBusy)] =
      ([((1, 1), ⟨false, []⟩), ((2, 2), ⟨true, []⟩)],
       [((2, 2), .IsBusy)]) := by
  decide

/-- C3 (amended): when no Registry entry exists for the event's id, the
event is silently dropped and the loop continues with the remaining
events; when an entry exists but its per-connection channel is closed,
that single event is dropped and the loop terminates (`break`), leaving
every remaining event unconsumed. -/
theorem C3_route_loop_amended (conns : Registry) (u : ConnId)
    (m : ServerMessage) (rest : List (ConnId × ServerMessage)) :
    (Registry.get conns u = none →
      route_msg_from_unity_loop conns ((u, m) :: rest) =
        route_msg_from_unity_loop conns rest) ∧
    (∀ ch, Registry.get conns u = some ch → ch.receiverAlive = false →
      route_msg_from_unity_loop conns ((u, m) :: rest) = (conns, rest)) := by
  constructor
  · intro h
    simp [route_msg_from_unity_loop, h]
  · intro ch h hdead
    simp [route_msg_from_unity_loop, h, Chan.send, hdead]

/-- Witness for C3 (amended): a miss on an empty registry, and a hit on a
closed channel. -/
theorem C3_route_loop_amended_witness :
    route_msg_from_unity_loop ([] : Registry)
        [((3, 3), .IsBusy)] = ([], []) ∧
    route_msg_from_unity_loop [((1, 1), ⟨false, []⟩)]
        [((1, 1), .IsBusy), ((2, 2), .Compiling)] =
      ([((1, 1), ⟨false, []⟩)], [((2, 2), .Compiling)]) :=
  ⟨(C3_route_loop_amended [] (3, 3) .IsBusy []).1 rfl,
   (C3_route_loop_amended [((1, 1), ⟨false, []⟩)] (1, 1) .IsBusy
      [((2, 2), .Compiling)]).2 ⟨false, []⟩ (by decide) rfl⟩

/-! ## Claim C4 -/

/-- C4 counterexample: the read pump hits a deserialization error — one of
its termination paths — and terminates, yet its action trace contains no
registry release at all: `handle_read` has no release guard, so the
ConnectionId is not removed from the Registry on read-pump
termination. -/
theorem C4_counterexample :
    (handle_read (5, 5) [.deserError]).2 = true ∧
    releaseCount (handle_read (5, 5) [.deserError]).1 = 0 := by
  decide

/-- C4 (amended): the scoped release action lives only in the write pump:
whenever the write pump terminates — on every exit path, write-error and
channel-closed alike — its ConnectionId is removed from the Registry
exactly once, as the pump's final action; while the write pump is still
running no release has happened; the read pump's termination performs no
registry removal at all; and the Registry insert and remove operations
preserve at-most-one-entry-per-ConnectionId. -/
theorem C4_release_amended :
    (∀ (uuid : ConnId) (revs : List ReadEvent),
      releaseCount (handle_read uuid revs).1 = 0) ∧
    (∀ wevs : List WriteEvent, (handle_write wevs).2 = true →
      releaseCount (handle_write wevs).1 = 1 ∧
      (handle_write wevs).1.getLast? = some .releaseConn) ∧
    (∀ wevs : List WriteEvent, (handle_write wevs).2 = false →
      releaseCount (handle_write wevs).1 = 0) ∧
    (∀ (conns : Registry) (u : ConnId) (c : Chan ServerMessage),
      (keysOf conns).Nodup →
      (keysOf (Registry.insert conns u c)).Nodup ∧
      (keysOf (Registry.remove conns u)).Nodup) := by
  refine ⟨releaseCount_handle_read, ?_, ?_, ?_⟩
  · intro wevs h
    rw [handle_write] at h ⊢
    by_cases ht : (handle_write_loop wevs).2
    · simp only [ht, if_true]
      constructor
      · rw [releaseCount_append, releaseCount_handle_write_loop]
        rfl
      · exact List.getLast?_concat _
    · simp [ht] at h
  · intro wevs h
    rw [handle_write] at h ⊢
    by_cases ht : (handle_write_loop wevs).2
    · simp [ht] at h
    · simp only [ht, if_false]
      exact releaseCount_handle_write_loop wevs
  · intro conns u c h
    have hkeys : keysOf (Registry.remove conns u) =
        (keysOf conns).filter fun k => ¬ k = u := keysOf_filter_ne conns u
    have hrem : (keysOf (Registry.remove conns u)).Nodup := by
      rw [hkeys]; exact h.filter _
    refine ⟨?_, hrem⟩
    have hins : keysOf (Registry.insert conns u c) =
        u :: keysOf (Registry.remove conns u) := rfl
    rw [hins, List.nodup_cons]
    refine ⟨?_, hrem⟩
    intro hmem
    rw [hkeys, List.mem_filter] at hmem
    simp at hmem

/-- Witness for C4 (amended): a write pump that terminates on a write
error releases exactly once, as its final action. -/
theorem C4_release_amended_witness :
    releaseCount (handle_write [.message .IsBusy false]).1 = 1 ∧
    (handle_write [.message .IsBusy false]).1.getLast? =
      some .releaseConn :=
  C4_release_amended.2.1 [.message .IsBusy false] (by decide)

/-! ## Claim C6 -/

/-- C6 counterexample: an accept error produces no action at all — in
particular no log action — because the accept loop's error arm is
`Err(_e) => {}`: the error is silently discarded, not logged. -/
theorem C6_counterexample :
    accept_conn_loop [.acceptError] = [] ∧
    AcceptAction.logError ∉ accept_conn_loop [.acceptError] := by
  decide

/-- C6 (amended): an accept error is silently ignored — no log action is
ever emitted by the accept loop — and the loop continues: the events
after an error are processed exactly as they would be on their own, so no
accept error terminates the accept loop. -/
theorem C6_accept_amended (pre post : List AcceptEvent) :
    accept_conn_loop (pre ++ .acceptError :: post) =
      accept_conn_loop pre ++ accept_conn_loop post ∧
    ∀ evs, AcceptAction.logError ∉ accept_conn_loop evs := by
  constructor
  · induction pre with
    | nil => rfl
    | cons e rest ih => cases e <;> simpa [accept_conn_loop] using ih
  · intro evs
    induction evs with
    | nil => simp [accept_conn_loop]
    | cons e rest ih => cases e <;> simp [accept_conn_loop, ih]

/-! ## Claim C7 -/

/-- C7 counterexample: with a `--path` filter supplied but canonicalization
failing (`canon` always errors, e.g. the filter path does not exist), a
resolved instance whose path matches no filter at all — by neither exact
nor prefix match — is admitted as a candidate and, being the only one,
returned by `discover_service`: the path check falls through on a
canonicalization error instead of rejecting. -/
theorem C7_counterexample :
    discover_service (fun _ => none)
        [⟨[1], 7, 115 :: mdnsServiceName, [104],
          [(projectPathKey, [121]), (projectNameKey, [110]),
           (unityVersionKey, [118])]⟩]
        ⟨some [120], none, none⟩ [119] =
      .found ⟨(1, 7), [104], [121], [110], [118], [115]⟩ ∧
    specAdmits ⟨some [120], none, none⟩
        ⟨(1, 7), [104], [121], [110], [118], [115]⟩ = false := by
  decide

/-- C7 (amended): the filters are consulted in priority order rather than
conjunctively. A path filter whose canonicalizations succeed admits the
instance exactly on canonicalized-path equality (an exact match); with no
path filter, a project filter admits exactly on prefix match of the
project name (exact flag on equality); with neither, a session filter
admits exactly on prefix match of the session name; but when a path
filter is supplied and canonicalization of either side fails (and no
project/session filter is present), the instance is admitted as a
non-exact candidate without any filter having matched. When no instance
matches exactly and more than one candidate remains, `discover_service`
hits the `todo!()` stub (an unimplemented panic) instead of returning one
of the candidates arbitrarily. -/
theorem C7_discover_amended (canon : ByteStr → Option ByteStr)
    (args : DiscoveryArgs) (workdir : ByteStr) (service : ServiceM) :
    (∀ pa cp csp, args.path = some pa → canon pa = some cp →
      canon service.path = some csp →
      filterDecision canon args workdir service =
        (if cp = csp then some (true, service) else none)) ∧
    (∀ pr, args.path = none → args.project = some pr →
      filterDecision canon args workdir service =
        (if pr.isPrefixOf service.project then
          some (decide (service.project = pr), service)
         else none)) ∧
    (∀ sa, args.path = none → args.project = none → args.session = some sa →
      filterDecision canon args workdir service =
        (if sa.isPrefixOf service.session_name then
          some (decide (service.session_name = sa), service)
         else none)) ∧
    (∀ pa, args.path = some pa →
      (canon pa = none ∨ canon service.path = none) →
      args.project = none → args.session = none →
      filterDecision canon args workdir service = some (false, service)) ∧
    (∀ events : List ServiceInfoM,
      (∀ info ∈ events,
        (filter_service canon info args workdir).map Prod.fst ≠ some true) →
      2 ≤ (nonExactCandidates canon args workdir events).length →
      discover_service canon events args workdir = .unimplementedAmbiguous) := by
  refine ⟨?_, ?_, ?_, ?_, ?_⟩
  · intro pa cp csp hpa hcp hcsp
    simp [filterDecision, hpa, hcp, hcsp]
  · intro pr hpa hpr
    simp only [filterDecision, hpa, hpr]
  · intro sa hpa hpr hsa
    simp only [filterDecision, hpa, hpr, hsa]
  · intro pa hpa hfail hpr hsa
    rcases hfail with hfail | hfail <;>
      · simp only [filterDecision, hpa, hpr, hsa, hfail]
        cases hother : canon service.path <;> cases hother2 : canon pa <;>
          simp_all
  · intro events hnoexact hlen
    rw [discover_service,
      discover_loop_no_exact canon args workdir events [] hnoexact]
    cases hc : nonExactCandidates canon args workdir events with
    | nil => rw [hc] at hlen; simp at hlen
    | cons a tl =>
        cases tl with
        | nil => rw [hc] at hlen; simp at hlen
        | cons b t => rfl

/-- Witness for C7 (amended): the canonicalization-failure fall-through at
the counterexample's concrete input, and the ambiguity stub on two
non-exact candidates. -/
theorem C7_discover_amended_witness :
    filterDecision (fun _ => none) ⟨some [120], none, none⟩ [119]
        ⟨(1, 7), [104], [121], [110], [118], [115]⟩ =
      some (false, ⟨(1, 7), [104], [121], [110], [118], [115]⟩) ∧
    discover_service (fun _ => none)
        [⟨[1], 7, [115], [104],
          [(projectPathKey, [121]), (projectNameKey, [110]),
           (unityVersionKey, [118])]⟩,
         ⟨[2], 8, [116], [105],
          [(projectPathKey, [122]), (projectNameKey, [111]),
           (unityVersionKey, [118])]⟩]
        ⟨some [120], none, none⟩ [119] = .unimplementedAmbiguous :=
  ⟨(C7_discover_amended (fun _ => none) ⟨some [120], none, none⟩ [119]
      ⟨(1, 7), [104], [121], [110], [118], [115]⟩).2.2.2.1
    [120] rfl (Or.inl rfl) rfl rfl,
   (C7_discover_amended (fun _ => none) ⟨some [120], none, none⟩ [119]
      ⟨(1, 7), [104], [121], [110], [118], [115]⟩).2.2.2.2
    _ (by decide) (by decide)⟩

/-! ## Claim C1 -/

/-- C1 counterexample: `bigClientMsg` is a representable message, but its
bincode payload (8388628 bytes) exceeds the stream codec's 8 MiB maximum
frame length: the stream encoder returns an error instead of a frame, and
the stream decoder rejects the frame written by the blocking codec with
an error instead of decoding it back — so neither the stream-form
round-trip nor blocking-write/stream-read interchange holds for every
representable message. -/
theorem C1_counterexample :
    bigClientMsg.wf = true ∧
    asyncEncode serClientMessage bigClientMsg = none ∧
    (asyncFeed deserClientMessage (none, [])
      (syncWrite serClientMessage bigClientMsg)).2 =
        (DecodeOut.error : DecodeOut ClientMessage) := by
  have hM : MAX_FRAME_LEN = 8388608 := by norm_num [MAX_FRAME_LEN]
  have hser : serClientMessage bigClientMsg =
      u32le 0 ++ serBytes (List.replicate MAX_FRAME_LEN 97) ++ u64le 0 ++ [] :=
    rfl
  have hlen : (serClientMessage bigClientMsg).length = MAX_FRAME_LEN + 20 := by
    rw [hser, serBytes]
    rw [List.append_nil, List.length_append, List.length_append,
      List.length_append, length_u32le, length_u64le, length_u64le,
      List.length_replicate]
    omega
  refine ⟨?_, ?_, ?_⟩
  · rw [show bigClientMsg =
        ClientMessage.CommandRequest (List.replicate MAX_FRAME_LEN 97) []
      from rfl]
    rw [ClientMessage.wf]
    have h1 : wfStr (List.replicate MAX_FRAME_LEN 97) = true := by
      rw [wfStr]
      refine (Bool.and_eq_true _ _).mpr ⟨?_, ?_⟩
      · rw [List.all_eq_true]
        intro x hx
        rw [List.mem_replicate] at hx
        rw [hx.2]
        rfl
      · rw [List.length_replicate, hM]
        rfl
    rw [h1]
    rfl
  · rw [asyncEncode, lddEncode, if_pos (by rw [hlen]; omega)]
  · have hsw : syncWrite serClientMessage bigClientMsg =
        u32be (MAX_FRAME_LEN + 20) ++ serClientMessage bigClientMsg := by
      rw [syncWrite, hlen]
    have h4 : ¬ (u32be (MAX_FRAME_LEN + 20) ++
        serClientMessage bigClientMsg).length < 4 := by
      rw [List.length_append, length_u32be]
      omega
    have htake : (u32be (MAX_FRAME_LEN + 20) ++
        serClientMessage bigClientMsg).take 4 = u32be (MAX_FRAME_LEN + 20) :=
      List.take_left' (length_u32be _)
    have hbe : beVal (u32be (MAX_FRAME_LEN + 20)) = MAX_FRAME_LEN + 20 := by
      rw [beVal_u32be]
      omega
    have hdec : lddDecode none
        ([] ++ syncWrite serClientMessage bigClientMsg) =
        ((none, u32be (MAX_FRAME_LEN + 20) ++ serClientMessage bigClientMsg),
          .error) := by
      rw [List.nil_append, hsw]
      simp only [lddDecode, if_neg h4, htake, hbe]
      rw [if_pos (by omega)]
    rw [asyncFeed_error deserClientMessage (none, [])
      (syncWrite serClientMessage bigClientMsg) _ hdec]

/-- C1 (amended): for every representable message — client or server —
whose bincode payload is at most the stream codec's maximum frame length
(8 MiB, the `LengthDelimitedCodec` default), the two codec forms produce
byte-identical frames, the blocking reader decodes the common frame back
to the original message with nothing left unread, and the stream decoder
fed the common frame yields the original message with an empty buffer; in
particular each form decodes the other form's frames. -/
theorem C1_roundtrip_amended (mc : ClientMessage) (ms : ServerMessage)
    (hmc : mc.wf = true) (hms : ms.wf = true)
    (hlc : (serClientMessage mc).length ≤ MAX_FRAME_LEN)
    (hls : (serServerMessage ms).length ≤ MAX_FRAME_LEN) :
    (asyncEncode serClientMessage mc = some (syncWrite serClientMessage mc) ∧
     asyncEncode serServerMessage ms = some (syncWrite serServerMessage ms)) ∧
    (syncRead deserClientMessage (syncWrite serClientMessage mc) =
        some (mc, []) ∧
     syncRead deserServerMessage (syncWrite serServerMessage ms) =
        some (ms, [])) ∧
    (asyncFeed deserClientMessage (none, []) (syncWrite serClientMessage mc) =
        ((none, []), .frame mc) ∧
     asyncFeed deserServerMessage (none, []) (syncWrite serServerMessage ms) =
        ((none, []), .frame ms)) := by
  have hmax32 : MAX_FRAME_LEN < 2 ^ 32 := by norm_num [MAX_FRAME_LEN]
  have hrtc : deserClientMessage (serClientMessage mc) = some (mc, []) := by
    simpa using deserClientMessage_ser mc [] hmc
  have hrts : deserServerMessage (serServerMessage ms) = some (ms, []) := by
    simpa using deserServerMessage_ser ms [] hms
  exact ⟨⟨asyncEncode_eq_syncWrite _ mc hlc, asyncEncode_eq_syncWrite _ ms hls⟩,
    ⟨syncRead_syncWrite _ _ mc hrtc (by omega),
     syncRead_syncWrite _ _ ms hrts (by omega)⟩,
    ⟨asyncFeed_whole _ _ mc hrtc hlc, asyncFeed_whole _ _ ms hrts hls⟩⟩

/-- Witness for C1 (amended) at a small command request and a small
command-finished event. -/
theorem C1_roundtrip_amended_witness :
    (asyncEncode serClientMessage (.CommandRequest [102] [[97]]) =
        some (syncWrite serClientMessage (.CommandRequest [102] [[97]])) ∧
     asyncEncode serServerMessage (.CommandFinished true (some [111])) =
        some (syncWrite serServerMessage (.CommandFinished true (some [111])))) ∧
    (syncRead deserClientMessage
        (syncWrite serClientMessage (.CommandRequest [102] [[97]])) =
        some (.CommandRequest [102] [[97]], []) ∧
     syncRead deserServerMessage
        (syncWrite serServerMessage (.CommandFinished true (some [111]))) =
        some (.CommandFinished true (some [111]), [])) ∧
    (asyncFeed deserClientMessage (none, [])
        (syncWrite serClientMessage (.CommandRequest [102] [[97]])) =
        ((none, []), .frame (.CommandRequest [102] [[97]])) ∧
     asyncFeed deserServerMessage (none, [])
        (syncWrite serServerMessage (.CommandFinished true (some [111]))) =
        ((none, []), .frame (.CommandFinished true (some [111])))) :=
  C1_roundtrip_amended (.CommandRequest [102] [[97]])
    (.CommandFinished true (some [111]))
    (by decide) (by decide) (by decide) (by decide)

/-! ## Claim C5 -/

/-- C5: partial-frame resilience of the stream decoder. For any message
and the frame the stream encoder produces for it (byte-identical to the
blocking writer's frame), feeding the decoder the frame's bytes split at
any byte boundaries yields `incomplete` on every call that ends strictly
before the frame's final byte — the decoder state advancing exactly with
the bytes buffered — and the call that supplies the final byte yields
exactly the one decoded message, retaining precisely the surplus bytes
delivered beyond the frame (zero leftover when the split is exact, no
duplicated bytes). -/
theorem C5_partial_frame {α : Type} (ser : α → List Nat)
    (deser : List Nat → Option (α × List Nat)) (m : α) (F : List Nat)
    (hrt : deser (ser m) = some (m, []))
    (henc : asyncEncode ser m = some F) :
    partialSt (ser m) 0 = (none, []) ∧
    (∀ j k, j ≤ k → k < F.length →
      asyncFeed deser (partialSt (ser m) j) ((F.drop j).take (k - j)) =
        (partialSt (ser m) k, .incomplete)) ∧
    (∀ j extra, j ≤ F.length →
      asyncFeed deser (partialSt (ser m) j) (F.drop j ++ extra) =
        ((none, extra), .frame m)) := by
  have hmax : ¬ (ser m).length > MAX_FRAME_LEN := by
    by_contra hgt
    rw [asyncEncode, lddEncode, if_pos (by omega)] at henc
    exact Option.noConfusion henc
  have hF : F = u32be (ser m).length ++ ser m := by
    rw [asyncEncode, lddEncode, if_neg hmax] at henc
    exact (Option.some.injEq _ _).mp henc.symm
  have hFlen : F.length = 4 + (ser m).length := by rw [hF]; simp
  refine ⟨partialSt_zero _, ?_, ?_⟩
  · intro j k hjk hk
    have hp := lddFeed_partial (ser m) (by omega) j k hjk (by omega)
    rw [← hF] at hp
    simp only [asyncFeed, hp]
  · intro j extra hj
    have hc := lddFeed_complete (ser m) (by omega) j (by omega) extra
    rw [← hF] at hc
    simp only [asyncFeed, hc, hrt]

/-- Witness for C5: the frame of an `IsBusy` server event, split after its
first byte, with one surplus byte after the frame. -/
theorem C5_partial_frame_witness :
    partialSt (serServerMessage .IsBusy) 0 = (none, []) ∧
    asyncFeed deserServerMessage (partialSt (serServerMessage .IsBusy) 0)
        (((u32be 4 ++ serServerMessage .IsBusy).drop 0).take 1) =
      (partialSt (serServerMessage .IsBusy) 1, .incomplete) ∧
    asyncFeed deserServerMessage (partialSt (serServerMessage .IsBusy) 1)
        ((u32be 4 ++ serServerMessage .IsBusy).drop 1 ++ [255]) =
      ((none, [255]), .frame ServerMessage.IsBusy) := by
  have h := C5_partial_frame serServerMessage deserServerMessage
    ServerMessage.IsBusy (u32be 4 ++ serServerMessage .IsBusy)
    (by decide) (by decide)
  exact ⟨h.1, h.2.1 0 1 (by decide) (by decide), h.2.2 1 [255] (by decide)⟩

end UnityCli
